import Mathlib

/-!
Verification of the deduplicating backup engine (`src/backup_engine.py`)
against its natural-language specification.

Modelling conventions, applied uniformly:

* Bytes are `Nat`, byte sequences are `List Nat`.
* SHA-256 is modelled as an injective content digest, instantiated as the
  identity on byte sequences (`sha256Model`).  The spec itself requires the
  digest to be collision resistant ("two different plaintexts must never be
  treated as the same chunk"), so an injective model is faithful; none of the
  claims depend on the bit-level form of the hash.  A digest is therefore a
  `List Nat`, and the hex-prefix `sha256[:8]` used for ids becomes `take 8`.
* `zlib.compress(data, 6)` wrapped in try/except is modelled by a parameter
  `cpr : List Nat → Option (List Nat)`: `some c` is a successful compression
  returning bytes `c`, `none` is the exception branch (store raw bytes).
  The engine in the source always uses zlib level 6, ignoring the job's
  `compression` field; the model mirrors this by using one `cpr` for a run.
* The SQLite tables `jobs`, `backups`, `chunks` become lists of records with
  the source's column layout; `INSERT` is append, `DELETE ... WHERE id = ?`
  is a filter on the id, `SELECT ... WHERE x = ?` is `List.find?`/`filter`.
  JSON dictionaries (`chunks_used`, `references`) become association lists
  `List (Digest × Nat)` preserving Python dict insertion order.
* The filesystem walked by `run_backup` is a value `fs : FS` associating a
  source path with the list of byte contents of the files `os.walk` yields
  under it, in walk order; a path absent from `fs` is `Path(...).exists()`
  returning false.  (The source never consults `exclude_patterns`.)
* Timestamps (`datetime.utcnow().timestamp()`) are `Nat` seconds and are
  passed as explicit parameters, as are the generated ids (`md5(...)[:12]`),
  which the source derives from the wall clock.
* Float division for `dedup_ratio` is modelled exactly in `Rat`.
-/

/-- A digest: the content address of a chunk.  See the modelling note above. -/
abbrev Digest := List Nat

/-- SHA-256 modelled as an injective content digest (identity on bytes). -/
def sha256Model (data : List Nat) : Digest := data

/-- Row of the `jobs` table / the `BackupJob` dataclass. -/
structure BackupJob where
  id : String
  name : String
  source_paths : List String
  exclude_patterns : List String
  destination : String
  schedule : String
  compression : String
  last_run : Option Nat
  size_bytes : Nat
  status : String
  deriving DecidableEq, Repr

/-- Row of the `backups` table: `chunk_ids` is the JSON dict mapping a chunk
digest to its occurrence count in this backup, in insertion order. -/
structure Backup where
  id : String
  job_id : String
  timestamp : Nat
  size_bytes : Nat
  dedup_ratio : Rat
  chunk_ids : List (Digest × Nat)
  deriving DecidableEq, Repr

/-- Row of the `chunks` table: `references` is the JSON dict stored in the
`references` column (the source always writes `json.dumps(\x7b\x7d)`, i.e. `[]`). -/
structure BackupChunk where
  id : Digest
  sha256 : Digest
  size : Nat
  compressed_size : Nat
  references : List (Digest × Nat)
  deriving DecidableEq, Repr

/-- The persisted state: the three SQLite tables. -/
structure DB where
  jobs : List BackupJob
  backups : List Backup
  chunks : List BackupChunk
  deriving DecidableEq, Repr

/-- The filesystem seen by `run_backup`: each source path maps to the byte
contents of the files `os.walk` finds under it, in walk order. -/
abbrev FS := List (String × List (List Nat))

/-- `Path(src_path).exists()` plus the walk: the files under a source path,
or `none` when the path does not exist. -/
def lookupFS (fs : FS) (p : String) : Option (List (List Nat)) :=
  (fs.find? (fun e => e.1 = p)).map (·.2)

/-- `SELECT * FROM jobs WHERE id = ?`. -/
def findJob (jobs : List BackupJob) (jid : String) : Option BackupJob :=
  jobs.find? (fun j => j.id = jid)

/-- `SELECT * FROM backups WHERE id = ?`. -/
def findBackup (backups : List Backup) (bid : String) : Option Backup :=
  backups.find? (fun b => b.id = bid)

/-- `SELECT * FROM chunks WHERE sha256 = ?`. -/
def findChunk (chunks : List BackupChunk) (d : Digest) : Option BackupChunk :=
  chunks.find? (fun c => c.sha256 = d)

/-- `f.read(CHUNK_SIZE)` loop: split a file's bytes into 4096-byte chunks
(`BackupEngine.CHUNK_SIZE`), the last chunk possibly shorter. -/
def chunksOf (l : List Nat) : List (List Nat) :=
  if l.isEmpty then [] else l.take 4096 :: chunksOf (l.drop 4096)
termination_by l.length
decreasing_by
  rename_i h
  have hl : 0 < l.length := by
    cases l with
    | nil => simp at h
    | cons a t => simp
  have h2 : l.length - 4096 < l.length := Nat.sub_lt hl (by norm_num)
  simpa using h2

/-- `chunks_used[sha256] = chunks_used.get(sha256, 0) + 1` on a Python dict:
increment in place if the key is present, else append with count 1. -/
def bumpUsed : List (Digest × Nat) → Digest → List (Digest × Nat)
  | [], d => [(d, 1)]
  | (k, n) :: rest, d =>
      if k = d then (k, n + 1) :: rest else (k, n) :: bumpUsed rest d

/-- The mutable locals of one `run_backup` call: the evolving `chunks` table
plus the accumulators `chunks_used`, `total_size`, `compressed_size`. -/
structure RunSt where
  chunks : List BackupChunk
  used : List (Digest × Nat)
  total : Nat
  compressed : Nat
  deriving DecidableEq, Repr

/-- The bytes the engine persists for a new chunk: `zlib.compress(data, 6)`
when compression succeeds — with no size comparison — and the raw bytes when
it raises (the bare `except` branch). -/
def storedBytesFor (cpr : List Nat → Option (List Nat)) (data : List Nat) :
    List Nat :=
  match cpr data with
  | some c => c
  | none => data

/-- The chunks-table row `run_backup` inserts for a chunk absent from the
store: `INSERT INTO chunks VALUES (chunk_<prefix>, sha256, len(chunk_data),
len(compressed), json.dumps(empty dict))`. -/
def newChunkRow (cpr : List Nat → Option (List Nat)) (data : List Nat) :
    BackupChunk :=
  let d := sha256Model data
  { id := d.take 8, sha256 := d, size := data.length,
    compressed_size := (storedBytesFor cpr data).length, references := [] }

/-- Body of the per-chunk loop of `run_backup` (lines 95-119 of the source):
hash the chunk, add its length to `total_size`; if a row with this digest
exists reuse its `compressed_size`, otherwise compress (falling back to the
raw bytes on error), insert a new row with `references = []`, and count the
new stored length. -/
def processChunk (cpr : List Nat → Option (List Nat)) (st : RunSt)
    (data : List Nat) : RunSt :=
  let d := sha256Model data
  match findChunk st.chunks d with
  | some ex =>
      { chunks := st.chunks
        used := bumpUsed st.used d
        total := st.total + data.length
        compressed := st.compressed + ex.compressed_size }
  | none =>
      { chunks := st.chunks ++ [newChunkRow cpr data]
        used := bumpUsed st.used d
        total := st.total + data.length
        compressed := st.compressed + (storedBytesFor cpr data).length }

/-- Process every chunk of a list in order. -/
def runChunks (cpr : List Nat → Option (List Nat)) (st : RunSt)
    (cs : List (List Nat)) : RunSt :=
  cs.foldl (processChunk cpr) st

/-- Process one file: read it in 4096-byte chunks. -/
def runFile (cpr : List Nat → Option (List Nat)) (st : RunSt)
    (data : List Nat) : RunSt :=
  runChunks cpr st (chunksOf data)

/-- Process one source path: skip it when it does not exist, else process
every file the walk yields. -/
def runPath (cpr : List Nat → Option (List Nat)) (fs : FS) (st : RunSt)
    (p : String) : RunSt :=
  match lookupFS fs p with
  | none => st
  | some files => files.foldl (runFile cpr) st

/-- `UPDATE jobs SET last_run = ?, size_bytes = ?, status = ? WHERE id = ?`. -/
def updateJobRun (jobs : List BackupJob) (jid : String) (now total : Nat) :
    List BackupJob :=
  jobs.map (fun j =>
    if j.id = jid then
      { j with last_run := some now, size_bytes := total, status := "completed" }
    else j)

/-- The run state at the end of the walk loop of `run_backup`: every source
path of the job processed, starting from the current chunks table and zeroed
accumulators. -/
def backupRunSt (cpr : List Nat → Option (List Nat)) (fs : FS) (db : DB)
    (job : BackupJob) : RunSt :=
  job.source_paths.foldl (runPath cpr fs)
    { chunks := db.chunks, used := [], total := 0, compressed := 0 }

/-- `BackupEngine.run_backup`.  `now` is `datetime.utcnow().timestamp()` and
`bid` the generated backup id, both inputs the source derives from the wall
clock.  Returns the value `run_backup` returns (`None` when the job id is
unknown) together with the resulting database state. -/
def run_backup (cpr : List Nat → Option (List Nat)) (fs : FS) (db : DB)
    (jid : String) (now : Nat) (bid : String) : Option String × DB :=
  match findJob db.jobs jid with
  | none => (none, db)
  | some job =>
      let st := backupRunSt cpr fs db job
      let ratio : Rat :=
        if st.total > 0 then (st.compressed : Rat) / (st.total : Rat) else 0
      let b : Backup :=
        { id := bid, job_id := jid, timestamp := now, size_bytes := st.total,
          dedup_ratio := ratio, chunk_ids := st.used }
      (some bid,
       { jobs := updateJobRun db.jobs jid now st.total,
         backups := db.backups ++ [b],
         chunks := st.chunks })

/-- Backups ordered as `ORDER BY timestamp DESC` (stable sort). -/
def tsGE (a b : Backup) : Prop := b.timestamp ≤ a.timestamp

instance : DecidableRel tsGE := fun a b => Nat.decLe b.timestamp a.timestamp

instance : IsTotal Backup tsGE :=
  ⟨fun a b => Nat.le_total b.timestamp a.timestamp⟩

instance : IsTrans Backup tsGE :=
  ⟨fun _ _ _ h1 h2 => Nat.le_trans h2 h1⟩

/-- `SELECT ... ORDER BY timestamp DESC` on a list of backup rows. -/
def sortDesc (bs : List Backup) : List Backup :=
  bs.insertionSort tsGE

/-- `BackupEngine.list_backups`.  `none` models calling without an argument;
Python's `if job_id:` is falsy for both `None` and the empty string, so
`some ""` takes the unfiltered branch. -/
def list_backups (db : DB) (job_id : Option String) : List Backup :=
  match job_id with
  | some s => if s = "" then sortDesc db.backups
              else sortDesc (db.backups.filter (fun b => b.job_id = s))
  | none => sortDesc db.backups

/-- The 22 bytes of `b"CHUNK_DATA_PLACEHOLDER"` that `restore` writes as the
content of every restored file. -/
def PLACEHOLDER : List Nat :=
  [67, 72, 85, 78, 75, 95, 68, 65, 84, 65, 95, 80, 76, 65, 67, 69, 72, 79,
   76, 68, 69, 82]

/-- `BackupEngine.restore`: returns the boolean result together with the list
of (file name, byte content) pairs written into the output directory, where a
file name `restored_<digest prefix>` is modelled by the digest prefix itself.
For each manifest digest found in the chunks table it writes `PLACEHOLDER`;
a missing digest is silently skipped. -/
def restore (db : DB) (bid : String) : Bool × List (Digest × List Nat) :=
  match findBackup db.backups bid with
  | none => (false, [])
  | some b =>
      (true,
       b.chunk_ids.foldl (fun acc p =>
         match findChunk db.chunks p.1 with
         | some _ => acc ++ [(p.1.take 8, PLACEHOLDER)]
         | none => acc) [])

/-- `BackupEngine.verify`: false when the backup id is unknown or some
manifest digest has no row in the chunks table, true otherwise. -/
def verify (db : DB) (bid : String) : Bool :=
  match findBackup db.backups bid with
  | none => false
  | some b => b.chunk_ids.all (fun p => (findChunk db.chunks p.1).isSome)

/-- `BackupEngine.prune`: select the job's backups ordered by timestamp
descending, keep the first `keep_daily + keep_weekly + keep_monthly`, delete
every later one from the backups table, and return the number deleted. -/
def prune (db : DB) (jid : String) (kd kw km : Nat) : Nat × DB :=
  let bs := sortDesc (db.backups.filter (fun b => b.job_id = jid))
  let toDelete := (bs.drop (kd + kw + km)).map (·.id)
  (toDelete.length,
   { db with backups := db.backups.filter (fun b => b.id ∉ toDelete) })

/-- Remove the chunk row with digest `d` from the store (the "deliberately
removing one referenced chunk" experiment of the spec's verify property). -/
def removeChunk (db : DB) (d : Digest) : DB :=
  { db with chunks := db.chunks.filter (fun c => c.sha256 ≠ d) }

/-- Total logical bytes of a run, defined independently of the engine: the
summed lengths of every file found under the job's source paths. -/
def totalLogical (fs : FS) (paths : List String) : Nat :=
  (paths.map (fun p =>
    match lookupFS fs p with
    | none => 0
    | some files => (files.map List.length).sum)).sum

/-- Modelled from the spec: the calendar week of a Unix timestamp (seconds).
Day 0 (1970-01-01) was a Thursday and ISO calendar weeks begin on Monday, so
day `d` falls in week `(d + 3) / 7` counted from the week of the epoch. -/
def weekIndex (t : Nat) : Nat := (t / 86400 + 3) / 7

/-- Modelled from the spec: the calendar month of a Unix timestamp (seconds),
as `12 * year + month`, via the standard civil-from-days date algorithm on
the proleptic Gregorian calendar. -/
def monthIndex (t : Nat) : Nat :=
  let day := t / 86400
  let z := day + 719468
  let era := z / 146097
  let doe := z % 146097
  let yoe := (doe - doe / 1460 + doe / 36524 - doe / 146096) / 365
  let doy := doe - (365 * yoe + yoe / 4 - yoe / 100)
  let mp := (5 * doy + 2) / 153
  let m := if mp < 10 then mp + 3 else mp - 9
  let y := era * 400 + yoe + (if m ≤ 2 then 1 else 0)
  12 * y + m

/-- Modelled from the spec's retention rule, weekly/monthly part: walk the
backups left after the daily rule in descending timestamp order and keep a
backup when its calendar week has no kept representative yet and fewer than
`kw` weekly keeps were made (the first backup seen in a week, i.e. the most
recent one, represents it), or likewise for its calendar month against `km`.
`ws`/`ms` are the weeks/months already represented, `wk`/`mk` the number of
weekly/monthly keeps made so far.  Returns the ids kept by either rule. -/
def specWMSelect (kw km : Nat) :
    List Backup → List Nat → Nat → List Nat → Nat → List String
  | [], _, _, _, _ => []
  | b :: rest, ws, wk, ms, mk =>
      let w := weekIndex b.timestamp
      let m := monthIndex b.timestamp
      let keepW : Bool := !(ws.contains w) && decide (wk < kw)
      let keepM : Bool := !(ms.contains m) && decide (mk < km)
      let ws2 := if keepW then ws ++ [w] else ws
      let wk2 := if keepW then wk + 1 else wk
      let ms2 := if keepM then ms ++ [m] else ms
      let mk2 := if keepM then mk + 1 else mk
      if keepW || keepM then b.id :: specWMSelect kw km rest ws2 wk2 ms2 mk2
      else specWMSelect kw km rest ws2 wk2 ms2 mk2

/-- Modelled from the spec: the ids of the backups the generational retention
policy keeps for a job — the most recent `kd` unconditionally, then among the
remainder at most one backup per calendar week up to `kw` weeks and at most
one per calendar month up to `km` months. -/
def specKeptIds (db : DB) (jid : String) (kd kw km : Nat) : List String :=
  let bs := sortDesc (db.backups.filter (fun b => b.job_id = jid))
  (bs.take kd).map (·.id) ++ specWMSelect kw km (bs.drop kd) [] 0 [] 0

/-- Modelled from the spec: the number of backups the generational retention
policy deletes for a job — every backup of the job not selected by any rule. -/
def specDeletedCount (db : DB) (jid : String) (kd kw km : Nat) : Nat :=
  ((db.backups.filter (fun b => b.job_id = jid)).filter
    (fun b => b.id ∉ specKeptIds db jid kd kw km)).length

/-! ### Concrete fixtures used by the claim theorems and witnesses -/

/-- The identity byte-transform: a compressor that succeeds and returns its
input unchanged (an innocuous instance of the pluggable transform). -/
def cprId : List Nat → Option (List Nat) := fun d => some d

/-- A compressor whose output is longer than its input, as zlib's is on
incompressible or tiny inputs (zlib level 6 maps the single byte 0x61 to a
9-byte output). -/
def cprDbl : List Nat → Option (List Nat) := fun d => some (d ++ d)

/-- A job named "j" backing up the single source path "src". -/
def exJob : BackupJob :=
  { id := "j", name := "n", source_paths := ["src"], exclude_patterns := [],
    destination := "", schedule := "daily", compression := "lz4",
    last_run := none, size_bytes := 0, status := "idle" }

/-- A database holding only the job `exJob`. -/
def exDB : DB := { jobs := [exJob], backups := [], chunks := [] }

/-- A filesystem with one file of one byte (value 42) under "src". -/
def fsOne : FS := [("src", [[42]])]

/-- A filesystem with two identical one-byte files (value 5) under "src". -/
def fsTwin : FS := [("src", [[5], [5]])]

/-- A filesystem with one file of one byte (value 7) under "src". -/
def fsSeven : FS := [("src", [[7]])]

/-- A backup row of job "j" with the given id and timestamp and an empty
manifest. -/
def mkB (i : String) (t : Nat) : Backup :=
  { id := i, job_id := "j", timestamp := t, size_bytes := 0, dedup_ratio := 0,
    chunk_ids := [] }

/-- Three backups of job "j" taken 1000 seconds apart on the epoch day, so
all in the same calendar week under any convention. -/
def dbThree : DB :=
  { jobs := [], backups := [mkB "b1" 1000, mkB "b2" 2000, mkB "b3" 3000],
    chunks := [] }

/-- One old backup of job "j" whose manifest references digest `[9]` once,
with the matching chunk row present. -/
def dbRef : DB :=
  { jobs := []
    backups := [{ id := "bOld", job_id := "j", timestamp := 1,
                  size_bytes := 4096, dedup_ratio := 1,
                  chunk_ids := [([9], 1)] }]
    chunks := [{ id := [9], sha256 := [9], size := 1, compressed_size := 1,
                 references := [] }] }

/-- A backup whose manifest references digest `[1, 2, 3]`, with an empty
chunk store: the referenced chunk is missing. -/
def dbMissing : DB :=
  { jobs := []
    backups := [{ id := "b1", job_id := "j", timestamp := 10,
                  size_bytes := 100, dedup_ratio := 1,
                  chunk_ids := [([1, 2, 3], 1)] }]
    chunks := [] }

/-- Same shape as `dbMissing` but the missing digest is `[4]` instead. -/
def dbMissing2 : DB :=
  { jobs := []
    backups := [{ id := "b1", job_id := "j", timestamp := 10,
                  size_bytes := 100, dedup_ratio := 1,
                  chunk_ids := [([4], 1)] }]
    chunks := [] }

/-- One backup row of job "j", for exercising `list_backups`. -/
def dbOneB : DB := { jobs := [], backups := [mkB "b1" 5], chunks := [] }

/-- Well-formedness of a chunks-table row under compressor `cpr`: its `size`
column is the plaintext length (the digest is the plaintext in this model)
and its `compressed_size` column is the length of exactly what the engine
stores — the compressor's output when compression succeeds, whether or not
that output is smaller, and the raw bytes when it raises. -/
def chunkWF (cpr : List Nat → Option (List Nat)) (c : BackupChunk) : Prop :=
  c.size = c.sha256.length ∧
  c.compressed_size = (storedBytesFor cpr c.sha256).length

/-! ### Helper lemmas about the run-state folds -/

theorem foldl_chunks_pres {β : Type} (f : RunSt → β → RunSt)
    (P : List BackupChunk → Prop)
    (h : ∀ st x, P st.chunks → P ((f st x).chunks)) :
    ∀ (l : List β) (st : RunSt), P st.chunks → P ((l.foldl f st).chunks) := by
  intro l
  induction l with
  | nil => intro st hs; exact hs
  | cons a t ih => intro st hs; exact ih (f st a) (h st a hs)

theorem runFile_chunks_pres (cpr : List Nat → Option (List Nat))
    (P : List BackupChunk → Prop)
    (h : ∀ st data, P st.chunks → P ((processChunk cpr st data).chunks)) :
    ∀ (st : RunSt) (data : List Nat),
      P st.chunks → P ((runFile cpr st data).chunks) := by
  intro st data hs
  exact foldl_chunks_pres (processChunk cpr) P h (chunksOf data) st hs

theorem runPath_chunks_pres (cpr : List Nat → Option (List Nat)) (fs : FS)
    (P : List BackupChunk → Prop)
    (h : ∀ st data, P st.chunks → P ((processChunk cpr st data).chunks)) :
    ∀ (st : RunSt) (p : String), P st.chunks → P ((runPath cpr fs st p).chunks) := by
  intro st p hs
  unfold runPath
  cases lookupFS fs p with
  | none => exact hs
  | some files =>
      exact foldl_chunks_pres (runFile cpr) P
        (fun st2 data hd => runFile_chunks_pres cpr P h st2 data hd) files st hs

theorem run_backup_chunks_pres (cpr : List Nat → Option (List Nat)) (fs : FS)
    (db : DB) (jid : String) (now : Nat) (bid : String)
    (P : List BackupChunk → Prop)
    (h : ∀ st data, P st.chunks → P ((processChunk cpr st data).chunks))
    (hdb : P db.chunks) :
    P ((run_backup cpr fs db jid now bid).2.chunks) := by
  rcases hj : findJob db.jobs jid with _ | job
  · simpa [run_backup, hj] using hdb
  · have : P (backupRunSt cpr fs db job).chunks := by
      unfold backupRunSt
      exact foldl_chunks_pres (runPath cpr fs) P
        (fun st p hs => runPath_chunks_pres cpr fs P h st p hs)
        job.source_paths _ hdb
    simpa [run_backup, hj] using this

theorem processChunk_mem_inv (cpr : List Nat → Option (List Nat))
    (Q : BackupChunk → Prop)
    (hnew : ∀ data, Q (newChunkRow cpr data))
    (st : RunSt) (data : List Nat)
    (h : ∀ c ∈ st.chunks, Q c) :
    ∀ c ∈ (processChunk cpr st data).chunks, Q c := by
  intro c hc
  rcases hfc : findChunk st.chunks (sha256Model data) with _ | ex
  · simp only [processChunk, hfc] at hc
    simp only [List.mem_append, List.mem_singleton] at hc
    rcases hc with hc | hc
    · exact h c hc
    · subst hc; exact hnew data
  · simp only [processChunk, hfc] at hc
    exact h c hc

theorem findChunk_eq_none_iff (chunks : List BackupChunk) (d : Digest) :
    findChunk chunks d = none ↔ ∀ c ∈ chunks, c.sha256 ≠ d := by
  simp [findChunk, List.find?_eq_none]

theorem processChunk_sha_nodup (cpr : List Nat → Option (List Nat))
    (st : RunSt) (data : List Nat)
    (h : (st.chunks.map (fun c => c.sha256)).Nodup) :
    ((processChunk cpr st data).chunks.map (fun c => c.sha256)).Nodup := by
  rcases hfc : findChunk st.chunks (sha256Model data) with _ | ex
  · have hnot : ∀ c ∈ st.chunks, c.sha256 ≠ sha256Model data :=
      (findChunk_eq_none_iff st.chunks (sha256Model data)).mp hfc
    simp only [processChunk, hfc, List.map_append, List.map_cons, List.map_nil]
    rw [List.nodup_append]
    refine ⟨h, List.nodup_singleton _, ?_⟩
    intro x hx hy
    simp only [newChunkRow, List.mem_singleton] at hy
    simp only [List.mem_map] at hx
    rcases hx with ⟨c, hc, rfl⟩
    exact hnot c hc (by simpa using hy)
  · simpa [processChunk, hfc] using h

theorem processChunk_total (cpr : List Nat → Option (List Nat))
    (st : RunSt) (data : List Nat) :
    (processChunk cpr st data).total = st.total + data.length := by
  rcases hfc : findChunk st.chunks (sha256Model data) with _ | ex <;>
    simp [processChunk, hfc]

theorem runChunks_total (cpr : List Nat → Option (List Nat)) :
    ∀ (cs : List (List Nat)) (st : RunSt),
      (runChunks cpr st cs).total = st.total + (cs.map List.length).sum := by
  intro cs
  induction cs with
  | nil => intro st; simp [runChunks]
  | cons a t ih =>
      intro st
      simp only [runChunks, List.foldl_cons] at *
      rw [ih (processChunk cpr st a), processChunk_total]
      simp
      omega

theorem chunksOf_sum_le : ∀ (n : Nat) (l : List Nat), l.length ≤ n →
    ((chunksOf l).map List.length).sum = l.length := by
  intro n
  induction n with
  | zero =>
      intro l hl
      have h0 : l = [] := List.eq_nil_of_length_eq_zero (Nat.le_zero.mp hl)
      subst h0
      rw [chunksOf]
      simp
  | succ n ih =>
      intro l hl
      rw [chunksOf]
      by_cases he : l.isEmpty = true
      · have h0 : l = [] := by
          cases l with
          | nil => rfl
          | cons a t => simp at he
        subst h0
        simp
      · rw [if_neg he]
        have hlen : 0 < l.length := by
          cases l with
          | nil => simp at he
          | cons a t => simp
        simp only [List.map_cons, List.sum_cons]
        rw [ih (l.drop 4096) (by simp only [List.length_drop]; omega)]
        simp only [List.length_take, List.length_drop]
        omega

theorem chunksOf_sum (l : List Nat) :
    ((chunksOf l).map List.length).sum = l.length :=
  chunksOf_sum_le l.length l le_rfl

theorem runFile_total (cpr : List Nat → Option (List Nat))
    (st : RunSt) (data : List Nat) :
    (runFile cpr st data).total = st.total + data.length := by
  unfold runFile
  rw [runChunks_total, chunksOf_sum]

theorem foldl_runFile_total (cpr : List Nat → Option (List Nat)) :
    ∀ (files : List (List Nat)) (st : RunSt),
      (files.foldl (runFile cpr) st).total =
        st.total + (files.map List.length).sum := by
  intro files
  induction files with
  | nil => intro st; simp
  | cons f t ih =>
      intro st
      simp only [List.foldl_cons]
      rw [ih, runFile_total]
      simp
      omega

theorem runPath_total (cpr : List Nat → Option (List Nat)) (fs : FS)
    (st : RunSt) (p : String) :
    (runPath cpr fs st p).total = st.total +
      (match lookupFS fs p with
       | none => 0
       | some files => (files.map List.length).sum) := by
  unfold runPath
  rcases h : lookupFS fs p with _ | files
  · simp
  · rw [foldl_runFile_total]

theorem foldl_runPath_total (cpr : List Nat → Option (List Nat)) (fs : FS) :
    ∀ (paths : List String) (st : RunSt),
      (paths.foldl (runPath cpr fs) st).total = st.total + totalLogical fs paths := by
  intro paths
  induction paths with
  | nil => intro st; simp [totalLogical]
  | cons p t ih =>
      intro st
      simp only [List.foldl_cons]
      rw [ih, runPath_total]
      simp only [totalLogical, List.map_cons, List.sum_cons]
      rcases h : lookupFS fs p with _ | files
      · simp [h]
      · simp [h]
        omega

theorem backupRunSt_total (cpr : List Nat → Option (List Nat)) (fs : FS)
    (db : DB) (job : BackupJob) :
    (backupRunSt cpr fs db job).total = totalLogical fs job.source_paths := by
  unfold backupRunSt
  rw [foldl_runPath_total]
  simp

theorem findChunk_removeChunk (db : DB) (d : Digest) :
    findChunk (removeChunk db d).chunks d = none := by
  rw [findChunk_eq_none_iff]
  intro c hc
  simp only [removeChunk, List.mem_filter] at hc
  simpa using hc.2

/-! ### Claim theorems -/

/-- C10: `run_backup` called with a job id not present in the jobs table
returns `None` and leaves the jobs, backups and chunks tables unchanged. -/
theorem run_backup_unknown_job (cpr : List Nat → Option (List Nat)) (fs : FS)
    (db : DB) (jid : String) (now : Nat) (bid : String)
    (h : findJob db.jobs jid = none) :
    run_backup cpr fs db jid now bid = (none, db) := by
  simp [run_backup, h]

/-- Witness for C10 at a concrete input: the job id "missing" is unknown in
`exDB`, and `run_backup` returns `None` leaving `exDB` unchanged. -/
theorem run_backup_unknown_job_witness :
    findJob exDB.jobs "missing" = none ∧
    run_backup cprId fsOne exDB "missing" 0 "b" = (none, exDB) :=
  ⟨by decide, run_backup_unknown_job cprId fsOne exDB "missing" 0 "b" (by decide)⟩

/-- C4 (amended): deleting backups during pruning removes only rows of the
backups table; the chunks table — every row and its references field — and
the jobs table are left unchanged, so no reference count is decremented and
no zero-reference chunk is reclaimed. -/
theorem prune_leaves_chunks (db : DB) (jid : String) (kd kw km : Nat) :
    (prune db jid kd kw km).2.chunks = db.chunks ∧
    (prune db jid kd kw km).2.jobs = db.jobs :=
  ⟨rfl, rfl⟩

/-- Witness for C4 (amended) at a concrete input. -/
theorem prune_leaves_chunks_witness :
    (prune dbRef "j" 0 0 0).2.chunks = dbRef.chunks ∧
    (prune dbRef "j" 0 0 0).2.jobs = dbRef.jobs :=
  prune_leaves_chunks dbRef "j" 0 0 0

/-- C4 counterexample: `dbRef` holds one backup of job "j" whose manifest
references digest `[9]` once, plus the matching chunk row.  Pruning with all
keep-counts zero deletes that backup — the only referent of the chunk — yet
the chunk row survives with its references field still the empty dict,
contradicting "every chunk whose reference count reaches zero is deleted". -/
theorem prune_no_reclaim_cex :
    (prune dbRef "j" 0 0 0).1 = 1 ∧
    (prune dbRef "j" 0 0 0).2.backups = [] ∧
    (prune dbRef "j" 0 0 0).2.chunks =
      [{ id := [9], sha256 := [9], size := 1, compressed_size := 1,
         references := [] }] := by
  refine ⟨by decide, by decide, by decide⟩

/-- C5 (amended): `restore` and `verify` return bare booleans.  `restore`
returns true exactly when the backup id is known — even when referenced
chunks are missing — and `verify` returns true exactly when the backup id is
known and every manifest digest has a chunk row; neither result enumerates
missing digests. -/
theorem restore_verify_boolean (db : DB) (bid : String) :
    ((restore db bid).1 = true ↔ (findBackup db.backups bid).isSome) ∧
    (verify db bid = true ↔ ∃ b, findBackup db.backups bid = some b ∧
       ∀ p ∈ b.chunk_ids, (findChunk db.chunks p.1).isSome) := by
  constructor
  · rcases h : findBackup db.backups bid with _ | b <;> simp [restore, h]
  · rcases h : findBackup db.backups bid with _ | b <;>
      simp [verify, h, List.all_eq_true]

/-- Witness for C5 (amended) at a concrete input. -/
theorem restore_verify_boolean_witness :
    ((restore dbRef "bOld").1 = true ↔ (findBackup dbRef.backups "bOld").isSome) ∧
    (verify dbRef "bOld" = true ↔ ∃ b, findBackup dbRef.backups "bOld" = some b ∧
       ∀ p ∈ b.chunk_ids, (findChunk dbRef.chunks p.1).isSome) :=
  restore_verify_boolean dbRef "bOld"

/-- C5 counterexample: `dbMissing` holds a backup whose only referenced
chunk digest `[1, 2, 3]` has no chunk row, yet `restore` reports the bare
boolean success `true` and writes nothing — there is no RestoreIncomplete
value listing the missing digest. -/
theorem restore_missing_cex :
    restore dbMissing "b1" = (true, []) ∧
    findChunk dbMissing.chunks [1, 2, 3] = none := by
  refine ⟨by decide, by decide⟩

/-- C8 (amended): for an existing backup all of whose referenced digests are
present in the chunk store, `verify` returns true; after removing one
referenced chunk from the store, `verify` returns false — but the result is
a bare boolean, so the missing digest is not listed. -/
theorem verify_present_and_removed (db : DB) (bid : String) (b : Backup)
    (hb : findBackup db.backups bid = some b) :
    ((∀ p ∈ b.chunk_ids, (findChunk db.chunks p.1).isSome) →
       verify db bid = true) ∧
    (∀ p ∈ b.chunk_ids, verify (removeChunk db p.1) bid = false) := by
  constructor
  · intro h
    simp only [verify, hb, List.all_eq_true]
    intro p hp
    simpa using h p hp
  · intro p hp
    have hb2 : findBackup (removeChunk db p.1).backups bid = some b := hb
    simp only [verify, hb2]
    rw [List.all_eq_false]
    refine ⟨p, hp, ?_⟩
    simp [findChunk_removeChunk db p.1]

/-- Witness for C8 (amended) at a concrete input: in `dbRef` the backup
"bOld" references digest `[9]`, which is stored. -/
theorem verify_present_and_removed_witness :
    ((∀ p ∈ ({ id := "bOld", job_id := "j", timestamp := 1,
               size_bytes := 4096, dedup_ratio := 1,
               chunk_ids := [([9], 1)] } : Backup).chunk_ids,
        (findChunk dbRef.chunks p.1).isSome) →
      verify dbRef "bOld" = true) ∧
    (∀ p ∈ ({ id := "bOld", job_id := "j", timestamp := 1,
              size_bytes := 4096, dedup_ratio := 1,
              chunk_ids := [([9], 1)] } : Backup).chunk_ids,
       verify (removeChunk dbRef p.1) "bOld" = false) :=
  verify_present_and_removed dbRef "bOld" _ (by decide)

/-- C8 counterexample: with distinct missing digests (`[1, 2, 3]` in
`dbMissing`, `[4]` in `dbMissing2`) the two `verify` results are the same
bare `false`, so the result cannot be "invalid listing exactly that missing
digest" — the output carries no digest at all. -/
theorem verify_no_listing_cex :
    verify dbMissing "b1" = false ∧ verify dbMissing2 "b1" = false ∧
    verify dbMissing "b1" = verify dbMissing2 "b1" ∧
    ([1, 2, 3] : Digest) ≠ [4] := by
  refine ⟨by decide, by decide, by decide, by decide⟩

/-- C9 (amended): `list_backups` always returns the rows sorted by timestamp
in descending order, and when a non-empty job_id is given it returns exactly
the backups whose job id equals it; the empty string — falsy in Python, like
passing no argument — disables the filter instead. -/
theorem list_backups_sorted_filter (db : DB) (oj : Option String) :
    (list_backups db oj).Sorted tsGE ∧
    (∀ s, oj = some s → s ≠ "" →
      ∀ b, b ∈ list_backups db oj ↔ b ∈ db.backups ∧ b.job_id = s) := by
  constructor
  · rcases oj with _ | s
    · exact List.sorted_insertionSort tsGE db.backups
    · by_cases hs : s = ""
      · simp only [list_backups, hs, if_pos rfl]
        exact List.sorted_insertionSort tsGE db.backups
      · simp only [list_backups, if_neg hs]
        exact List.sorted_insertionSort tsGE _
  · rintro s rfl hs b
    simp only [list_backups, if_neg hs, sortDesc]
    rw [(List.perm_insertionSort tsGE _).mem_iff]
    simp [List.mem_filter]

/-- Witness for C9 (amended) at a concrete input. -/
theorem list_backups_sorted_filter_witness :
    (list_backups dbOneB (some "j")).Sorted tsGE ∧
    (∀ s, (some "j" : Option String) = some s → s ≠ "" →
      ∀ b, b ∈ list_backups dbOneB (some "j") ↔
        b ∈ dbOneB.backups ∧ b.job_id = s) :=
  list_backups_sorted_filter dbOneB (some "j")

/-- C9 counterexample: calling `list_backups` with the empty string as the
job_id argument returns the backup of job "j" — a backup whose job id does
not equal the argument — because Python's `if job_id:` treats the empty
string as "no filter". -/
theorem list_backups_empty_cex :
    mkB "b1" 5 ∈ list_backups dbOneB (some "") ∧ (mkB "b1" 5).job_id ≠ "" := by
  refine ⟨by decide, by decide⟩

/-- C2 (amended): `run_backup` creates at most one chunks-table row per
digest — a digest already stored is never re-inserted, so digests stay
pairwise distinct — but it never writes a reference count: the `references`
field of every row is the empty dict before and after a run.  Repeat
occurrences are counted only in the new backup's own `chunks_used` manifest
(see the counterexample for "reference count becomes 2" failing). -/
theorem run_backup_dedup_rows (cpr : List Nat → Option (List Nat)) (fs : FS)
    (db : DB) (jid : String) (now : Nat) (bid : String)
    (h1 : (db.chunks.map (fun c => c.sha256)).Nodup)
    (h2 : ∀ c ∈ db.chunks, c.references = []) :
    ((run_backup cpr fs db jid now bid).2.chunks.map (fun c => c.sha256)).Nodup ∧
    ∀ c ∈ (run_backup cpr fs db jid now bid).2.chunks, c.references = [] := by
  constructor
  · exact run_backup_chunks_pres cpr fs db jid now bid
      (fun cs => (cs.map (fun c => c.sha256)).Nodup)
      (fun st data hs => processChunk_sha_nodup cpr st data hs) h1
  · exact run_backup_chunks_pres cpr fs db jid now bid
      (fun cs => ∀ c ∈ cs, c.references = [])
      (fun st data hs => processChunk_mem_inv cpr (fun c => c.references = [])
        (fun _ => rfl) st data hs) h2

/-- Witness for C2 (amended) at a concrete input: backing up two identical
files into the empty store. -/
theorem run_backup_dedup_rows_witness :
    ((run_backup cprId fsTwin exDB "j" 5 "b1").2.chunks.map
        (fun c => c.sha256)).Nodup ∧
    ∀ c ∈ (run_backup cprId fsTwin exDB "j" 5 "b1").2.chunks,
      c.references = [] :=
  run_backup_dedup_rows cprId fsTwin exDB "j" 5 "b1" (by simp [exDB])
    (by simp [exDB])

/-- C2 counterexample: backing up two identical one-byte files (content
`[5]`) yields exactly one chunks-table row for digest `[5]` — but its
`references` field is still the empty dict, not a reference count of 2; the
multiplicity 2 lives only in the backup's own manifest. -/
theorem run_backup_refcount_cex :
    (run_backup cprId fsTwin exDB "j" 5 "b1").2.chunks =
      [{ id := [5], sha256 := [5], size := 1, compressed_size := 1,
         references := [] }] ∧
    (run_backup cprId fsTwin exDB "j" 5 "b1").2.backups.map
      (fun b => b.chunk_ids) = [[([5], 2)]] := by
  constructor
  · simp [run_backup, cprId, fsTwin, exDB, exJob, backupRunSt, runPath, runFile,
      runChunks, processChunk, chunksOf, lookupFS, findJob, findChunk,
      newChunkRow, storedBytesFor, sha256Model, bumpUsed, updateJobRun]
  · simp [run_backup, cprId, fsTwin, exDB, exJob, backupRunSt, runPath, runFile,
      runChunks, processChunk, chunksOf, lookupFS, findJob, findChunk,
      newChunkRow, storedBytesFor, sha256Model, bumpUsed, updateJobRun]

/-- C7 (amended): when storing a new chunk the engine compresses the
plaintext with zlib level 6 (a fixed transform, modelled by `cpr`) and falls
back to the raw bytes only when compression raises; there is no size
comparison, and the recorded `compressed_size` is the length of the
compressor's output even when that output is larger than the plaintext — as
zlib's is on tiny or incompressible chunks — so `chunkWF`, not a
stored-size bound, is the invariant the rows satisfy. -/
theorem run_backup_stored_size (cpr : List Nat → Option (List Nat)) (fs : FS)
    (db : DB) (jid : String) (now : Nat) (bid : String)
    (h : ∀ c ∈ db.chunks, chunkWF cpr c) :
    ∀ c ∈ (run_backup cpr fs db jid now bid).2.chunks, chunkWF cpr c :=
  run_backup_chunks_pres cpr fs db jid now bid
    (fun cs => ∀ c ∈ cs, chunkWF cpr c)
    (fun st data hs => processChunk_mem_inv cpr (chunkWF cpr)
      (fun _ => ⟨rfl, rfl⟩) st data hs) h

/-- Witness for C7 (amended) at a concrete input: the chunk row produced by
backing up the one-byte file under the output-lengthening compressor
satisfies the stored-size characterization. -/
theorem run_backup_stored_size_witness :
    chunkWF cprDbl
      { id := [7], sha256 := [7], size := 1, compressed_size := 2,
        references := [] } :=
  run_backup_stored_size cprDbl fsSeven exDB "j" 5 "b1" (by simp [exDB])
    { id := [7], sha256 := [7], size := 1, compressed_size := 2,
      references := [] }
    (by simp [run_backup, cprDbl, fsSeven, exDB, exJob, backupRunSt, runPath,
        runFile, runChunks, processChunk, chunksOf, lookupFS, findJob,
        findChunk, newChunkRow, storedBytesFor, sha256Model, bumpUsed,
        updateJobRun])

/-- C7 counterexample: with a compressor whose output is longer than its
input — as zlib level 6 is on a one-byte chunk, mapping `0x61` to 9 bytes —
backing up a one-byte file stores a chunk row with `size = 1` and
`compressed_size = 2`: the code keeps the larger compressed form, so
stored_size is not at most the plaintext size and no
"not smaller → store raw" fallback exists. -/
theorem run_backup_stored_size_cex :
    (run_backup cprDbl fsSeven exDB "j" 5 "b1").2.chunks.map
      (fun c => (c.size, c.compressed_size)) = [(1, 2)] ∧ ¬ (2 ≤ 1) := by
  constructor
  · simp [run_backup, cprDbl, fsSeven, exDB, exJob, backupRunSt, runPath,
      runFile, runChunks, processChunk, chunksOf, lookupFS, findJob, findChunk,
      newChunkRow, storedBytesFor, sha256Model, bumpUsed, updateJobRun]
  · decide

/-- C6 (amended): a backup created by `run_backup` records `size_bytes` equal
to the total logical bytes of the run (the summed lengths of all files
walked) and a dedup ratio equal to stored size divided by logical size —
except that when the logical size is zero the recorded ratio is 0, not 1.0
(the source's `else 0` branch; see the counterexample). -/
theorem run_backup_ratio (cpr : List Nat → Option (List Nat)) (fs : FS)
    (db : DB) (jid : String) (now : Nat) (bid : String) (job : BackupJob)
    (h : findJob db.jobs jid = some job) :
    (run_backup cpr fs db jid now bid).2.backups = db.backups ++
      [{ id := bid, job_id := jid, timestamp := now,
         size_bytes := totalLogical fs job.source_paths,
         dedup_ratio :=
           if totalLogical fs job.source_paths = 0 then 0
           else ((backupRunSt cpr fs db job).compressed : Rat) /
                (totalLogical fs job.source_paths : Rat),
         chunk_ids := (backupRunSt cpr fs db job).used }] := by
  simp only [run_backup, h]
  rw [backupRunSt_total]
  by_cases h0 : totalLogical fs job.source_paths = 0
  · simp [h0]
  · simp [h0, Nat.pos_of_ne_zero h0]

/-- Witness for C6 (amended) at a concrete input. -/
theorem run_backup_ratio_witness :
    (run_backup cprId fsOne exDB "j" 5 "b1").2.backups = exDB.backups ++
      [{ id := "b1", job_id := "j", timestamp := 5,
         size_bytes := totalLogical fsOne exJob.source_paths,
         dedup_ratio :=
           if totalLogical fsOne exJob.source_paths = 0 then 0
           else ((backupRunSt cprId fsOne exDB exJob).compressed : Rat) /
                (totalLogical fsOne exJob.source_paths : Rat),
         chunk_ids := (backupRunSt cprId fsOne exDB exJob).used }] :=
  run_backup_ratio cprId fsOne exDB "j" 5 "b1" exJob (by decide)

/-- C6 counterexample: running a backup whose source path does not exist
backs up zero bytes, and the recorded dedup ratio is 0, not the claimed
1.0. -/
theorem run_backup_zero_ratio_cex :
    (run_backup cprId [] exDB "j" 7 "b1").2.backups.map
      (fun b => (b.size_bytes, b.dedup_ratio)) = [(0, 0)] ∧
    ((0 : Rat) ≠ 1) := by
  constructor
  · simp [run_backup, cprId, exDB, exJob, backupRunSt, runPath, runFile,
      runChunks, processChunk, chunksOf, lookupFS, findJob, findChunk,
      newChunkRow, storedBytesFor, sha256Model, bumpUsed, updateJobRun]
  · decide

/-- C1: the code evaluated at the failing input.  Back up a job whose single
source file holds the byte sequence `[42]`, then restore that backup: the
restore reports success but writes exactly one file, named after the digest
prefix (`restored_<prefix>`, modelled by the prefix) rather than the file's
original relative path, whose content is the fixed 22-byte placeholder
string `CHUNK_DATA_PLACEHOLDER` — not the original content `[42]`.  The
chunks table stores no chunk payload at all (only sizes), so no
implementation of this schema could reproduce the bytes. -/
theorem restore_placeholder_bug :
    restore (run_backup cprId fsOne exDB "j" 5 "b1").2 "b1" =
      (true, [([42], PLACEHOLDER)]) ∧ PLACEHOLDER ≠ [42] := by
  constructor
  · simp [restore, run_backup, cprId, fsOne, exDB, exJob, backupRunSt, runPath,
      runFile, runChunks, processChunk, chunksOf, lookupFS, findJob,
      findBackup, findChunk, newChunkRow, storedBytesFor, sha256Model,
      bumpUsed, updateJobRun]
  · decide

/-- C3 (amended): `prune` implements "keep the last N": it keeps the
`keep_daily + keep_weekly + keep_monthly` most recent backups of the job and
deletes every other backup of the job, returning their number; there is no
calendar-week or calendar-month bucketing (see the counterexample), and
backups of other jobs are untouched.  Stated for databases with globally
unique backup ids, as the id column is the table's primary key. -/
theorem prune_keeps_most_recent (db : DB) (jid : String) (kd kw km : Nat)
    (hids : (db.backups.map (fun b => b.id)).Nodup) :
    (prune db jid kd kw km).1 =
      (db.backups.filter (fun b => b.job_id = jid)).length - (kd + kw + km) ∧
    ∀ b ∈ db.backups,
      (b ∈ (prune db jid kd kw km).2.backups ↔
        ¬ (b.job_id = jid ∧
           b ∈ (sortDesc (db.backups.filter
                  (fun b2 => b2.job_id = jid))).drop (kd + kw + km))) := by
  constructor
  · simp only [prune, List.length_map, List.length_drop, sortDesc]
    rw [(List.perm_insertionSort tsGE _).length_eq]
  · intro b hb
    simp only [prune, List.mem_filter]
    constructor
    · rintro ⟨-, hnot⟩ ⟨hjob, hdrop⟩
      simp only [decide_eq_true_eq] at hnot
      exact hnot (List.mem_map_of_mem (fun b2 => b2.id) hdrop)
    · intro hno
      refine ⟨hb, ?_⟩
      simp only [decide_eq_true_eq]
      intro hmem
      rcases List.mem_map.mp hmem with ⟨b2, hb2drop, hid⟩
      have hb2S : b2 ∈ sortDesc (db.backups.filter (fun b2 => b2.job_id = jid)) :=
        List.drop_subset _ _ hb2drop
      have hb2F : b2 ∈ db.backups.filter (fun b2 => b2.job_id = jid) := by
        simpa [sortDesc] using
          ((List.perm_insertionSort tsGE _).mem_iff).mp hb2S
      have hb2L : b2 ∈ db.backups := (List.mem_filter.mp hb2F).1
      have hjid2 : b2.job_id = jid := by
        have := (List.mem_filter.mp hb2F).2
        simpa using this
      have hbeq : b = b2 :=
        List.inj_on_of_nodup_map hids hb hb2L hid.symm
      subst hbeq
      exact hno ⟨hjid2, hb2drop⟩

/-- Witness for C3 (amended) at a concrete input. -/
theorem prune_keeps_most_recent_witness :
    (prune dbThree "j" 1 2 0).1 =
      (dbThree.backups.filter (fun b => b.job_id = "j")).length - (1 + 2 + 0) ∧
    ∀ b ∈ dbThree.backups,
      (b ∈ (prune dbThree "j" 1 2 0).2.backups ↔
        ¬ (b.job_id = "j" ∧
           b ∈ (sortDesc (dbThree.backups.filter
                  (fun b2 => b2.job_id = "j"))).drop (1 + 2 + 0))) :=
  prune_keeps_most_recent dbThree "j" 1 2 0 (by decide)

/-- C3 counterexample: three backups of job "j" at timestamps 1000, 2000 and
3000 — all on the epoch day, hence in one calendar week and one calendar
month under any convention.  With keep_daily = 1, keep_weekly = 2 and
keep_monthly = 0 the generational rule keeps "b3" (daily) and "b2" (the most
recent backup of their shared week) and must delete "b1", returning 1; the
code keeps the last 1 + 2 + 0 = 3 backups, deletes nothing, and returns 0,
leaving "b1" in the backups table. -/
theorem prune_policy_cex :
    (prune dbThree "j" 1 2 0).1 = 0 ∧
    mkB "b1" 1000 ∈ (prune dbThree "j" 1 2 0).2.backups ∧
    specKeptIds dbThree "j" 1 2 0 = ["b3", "b2"] ∧
    specDeletedCount dbThree "j" 1 2 0 = 1 := by
  refine ⟨by decide, by decide, by decide, by decide⟩
